import Mathlib

/-!
Verification of `mixer/blender_data/filter.py`: the attribute-filtering
engine (Filter variants, FilterStack evaluation over a type inheritance
chain, and the memoizing `SynchronizedProperties` query surface).

The Python module is shallowly embedded: bpy RNA type handles become an
inductive type carrying the base chain (host hierarchies are acyclic and
bounded), properties become records of the fields the filters observe,
Python exceptions become `Option`/`Except`, and Python dicts become
insertion-ordered association lists.
-/

set_option autoImplicit false

namespace Mixer

/-- A bpy struct RNA handle (`something.bl_rna`): an identity plus the base
chain (`bl_rna.base`). The inductive structure reflects that host type
hierarchies are acyclic and bounded, so the base chain is finite. -/
inductive BlRna : Type where
  | mk (id : String) (base : Option BlRna)

/-- Equality of RNA handles is decidable (structural comparison along the
base chain). -/
def BlRna.decEq : (a b : BlRna) → Decidable (a = b)
  | .mk i1 none, .mk i2 none =>
      if h : i1 = i2 then isTrue (by rw [h])
      else isFalse (by intro he; injection he with h1 _; exact h h1)
  | .mk _ none, .mk _ (some _) =>
      isFalse (by intro he; injection he with _ h2; exact Option.noConfusion h2)
  | .mk _ (some _), .mk _ none =>
      isFalse (by intro he; injection he with _ h2; exact Option.noConfusion h2)
  | .mk i1 (some b1), .mk i2 (some b2) =>
      match BlRna.decEq b1 b2 with
      | isTrue hb =>
          if h : i1 = i2 then isTrue (by rw [h, hb])
          else isFalse (by intro he; injection he with h1 _; exact h h1)
      | isFalse hb =>
          isFalse (by intro he; injection he with _ h2; injection h2 with h3; exact hb h3)

instance : DecidableEq BlRna := BlRna.decEq

/-- `b.base` (the base RNA, or `None` for a root type). -/
def BlRna.base : BlRna → Option BlRna
  | .mk _ b => b

/-- `.bl_rna` on a struct RNA handle yields the handle itself. -/
def BlRna.bl_rna (b : BlRna) : BlRna := b

/-- A bpy RNA property, restricted to the fields the filters observe:
`identifier` (the attribute name), `bl_rna` (the RNA of the property class,
e.g. `T.CollectionProperty.bl_rna`), `srna` (the struct type inside a
collection property, `none` when unset/falsy), and the pointed-to type when
the property is a pointer (used by `is_pointer_to`). -/
structure Property where
  identifier : String
  bl_rna : BlRna
  srna : Option BlRna
  pointer_to : Option BlRna
deriving DecidableEq

/-- Modelled from the spec: `is_pointer_to` lives in
`mixer.blender_data.types`, which is not under src/; per the external
interface `isReferenceTo(attribute, type)`, it holds iff the attribute is a
reference/pointer to that type. -/
def is_pointer_to (p : Property) (t : BlRna) : Bool :=
  decide (p.pointer_to = some t)

/-- The distinguished RNA identity `T.CollectionProperty.bl_rna`, the
property class of homogeneous-collection properties. -/
def CollectionProperty_bl_rna : BlRna := .mk "CollectionProperty" none

/-- `TypeFilter.matches`: the property's RNA is one of the target RNAs, or
the property is a pointer to one of them. -/
def TypeFilter.matches (types : List BlRna) (p : Property) : Bool :=
  decide (p.bl_rna ∈ types) || types.any (fun t => is_pointer_to p t)

/-- The keep-predicate of `CollectionFilterOut.apply`:
`p.bl_rna is not T.CollectionProperty.bl_rna or p.srna and p.srna.bl_rna not in self._types`
(a property with falsy `srna` makes the second disjunct falsy). -/
def CollectionFilterOut.keeps (types : List BlRna) (p : Property) : Bool :=
  decide (p.bl_rna ≠ CollectionProperty_bl_rna) ||
    (match p.srna with
     | none => false
     | some s => decide (s.bl_rna ∉ types))

/-- The module-level `DEBUG` flag. -/
def DEBUG : Bool := true

/-- `_exclude_names`: names of properties that are always excluded. -/
def _exclude_names : List String :=
  ["type_info", "depsgraph", "rna_type", "is_evaluated", "original", "users",
   "use_fake_user", "tag", "is_library_indirect", "library",
   "override_library", "preview", "mixer_uuid"]

/-- `NameFilter.check_unknown`: the names warned about, one warning per list
element (`set(self._names)` is modelled by `List.dedup`; the set difference
with `_exclude_names` and the screening against the input identifiers are
the two successive comprehensions of the source). -/
def check_unknown (names : List String) (properties : List Property) :
    List String :=
  let identifiers := properties.map Property.identifier
  let local_exclusions := names.dedup.filter (fun n => decide (n ∉ _exclude_names))
  local_exclusions.filter (fun n => decide (n ∉ identifiers))

/-- The argument accepted by `NameFilter.__init__`: a single string, a set
of strings (modelled as the list of its elements), or a list of strings. -/
inductive NamesArg : Type where
  | ofStr (s : String)
  | ofSet (elems : List String)
  | ofList (l : List String)
deriving DecidableEq

/-- `NameFilter.__init__` normalization of `self._names`: a set is converted
to a list, a single string becomes a one-element list (the `isinstance(names, str)`
branch, so the string is not iterated character by character), and a list is
kept as is. -/
def NameFilter.namesInit : NamesArg → List String
  | .ofSet elems => elems
  | .ofStr s => [s]
  | .ofList l => l

/-- The closed set of `Filter` subclasses of the module, as a sum type. Each
type filter stores `self._types` (already mapped through `.bl_rna`), each
name filter stores `self._names` (already normalized by `NameFilter.__init__`). -/
inductive Filter : Type where
  | typeFilterIn (types : List BlRna)
  | typeFilterOut (types : List BlRna)
  | collectionFilterOut (types : List BlRna)
  | funcFilterOut
  | nameFilterIn (names : List String)
  | nameFilterOut (names : List String)
deriving DecidableEq

/-- Dispatch of `filter_.apply(properties)`. `FuncFilterOut` has an empty
class body and inherits no `apply`, so the attribute lookup raises
`AttributeError`; that failure is modelled by `none`. The other variants are
the list comprehensions of the source (`NameFilterOut`/`NameFilterIn` also
run `check_unknown` when `DEBUG` is set, a pure logging diagnostic that does
not contribute to the returned list; it is modelled separately in
`NameFilterOut.applyWithWarnings`). -/
def Filter.apply : Filter → List Property → Option (List Property)
  | .typeFilterIn types, properties =>
      some (properties.filter (fun p => TypeFilter.matches types p))
  | .typeFilterOut types, properties =>
      some (properties.filter (fun p => !TypeFilter.matches types p))
  | .collectionFilterOut types, properties =>
      some (properties.filter (fun p => CollectionFilterOut.keeps types p))
  | .funcFilterOut, _ => none
  | .nameFilterIn names, properties =>
      some (properties.filter (fun p => decide (p.identifier ∈ names)))
  | .nameFilterOut names, properties =>
      some (properties.filter (fun p => decide (p.identifier ∉ names)))

/-- `NameFilterOut.apply` together with its diagnostic side channel: the
warnings issued by `check_unknown` (run because `DEBUG` is true) paired with
the returned list. -/
def NameFilterOut.applyWithWarnings (names : List String)
    (properties : List Property) : List String × List Property :=
  ((if DEBUG then check_unknown names properties else []),
   properties.filter (fun p => decide (p.identifier ∉ names)))

/-- The value stored under a key of a `FilterSet`: a single `Filter` or an
iterable of filters. -/
inductive FiltersVal : Type where
  | single (f : Filter)
  | list (fs : List Filter)
deriving DecidableEq

/-- `filters if isinstance(filters, Iterable) else [filters]`: a lone
`Filter` instance is not iterable and is wrapped in a one-element list. -/
def FiltersVal.toList : FiltersVal → List Filter
  | .single f => [f]
  | .list fs => fs

/-- `FilterSet = Dict[Any, Iterable[Filter]]`, keyed by a struct RNA or by
`None` (the wildcard); modelled as an association list, looked up like a
dict (first binding wins). -/
abbrev FilterSet := List (Option BlRna × FiltersVal)

/-- `filter_set.get(bl_rna, [])` followed by the iterable normalization: the
filters a layer holds for a chain entry, the empty list when the entry is
absent. -/
def FilterSet.get (fs : FilterSet) (k : Option BlRna) : List Filter :=
  match fs.find? (fun kv => decide (kv.1 = k)) with
  | none => []
  | some kv => kv.2.toList

/-- `bases(bl_rna)`: a generator yielding the RNA itself, then each base
RNA in order, then `None`. -/
def bases : BlRna → List (Option BlRna)
  | .mk i none => [some (.mk i none), none]
  | .mk i (some b) => some (.mk i (some b)) :: bases b

/-- `FilterStack`: the append-only list of `FilterSet` layers
(`self._filter_stack`). -/
structure FilterStack where
  _filter_stack : List FilterSet
deriving DecidableEq

/-- The innermost loop of `FilterStack.apply`: apply each filter in
sequence, each output feeding the next input; a raising filter aborts the
whole evaluation. -/
def applyFilters : List Filter → List Property → Option (List Property)
  | [], properties => some properties
  | f :: fs, properties => (f.apply properties).bind (applyFilters fs)

/-- The middle loop of `FilterStack.apply`: for each layer in append order,
fetch that layer's filters for the current chain entry and apply them. -/
def applyLayers : List FilterSet → Option BlRna → List Property →
    Option (List Property)
  | [], _, properties => some properties
  | fs :: rest, k, properties =>
      (applyFilters (fs.get k) properties).bind (applyLayers rest k)

/-- The outer loop of `FilterStack.apply`: walk the chain entries produced
by `bases`, converting each non-`None` entry through `.bl_rna`
(`bl_rna = None if class_ is None else class_.bl_rna`). -/
def applyChain (layers : List FilterSet) :
    List (Option BlRna) → List Property → Option (List Property)
  | [], properties => some properties
  | class_ :: rest, properties =>
      (applyLayers layers (class_.map BlRna.bl_rna) properties).bind
        (applyChain layers rest)

/-- `FilterStack.apply(bl_rna, properties)`. -/
def FilterStack.apply (self : FilterStack) (bl_rna : BlRna)
    (properties : List Property) : Option (List Property) :=
  applyChain self._filter_stack (bases bl_rna) properties

/-- `FilterStack.append(filter_set)`: appends the layer after mapping every
non-`None` key through `.bl_rna`. -/
def FilterStack.append (self : FilterStack) (filter_set : FilterSet) :
    FilterStack :=
  ⟨self._filter_stack ++
    [filter_set.map (fun kv => (kv.1.map BlRna.bl_rna, kv.2))]⟩

/-- The ordered name → property mapping (`Properties = Dict[PropertyName, Property]`),
a Python dict modelled as an insertion-ordered association list. -/
abbrev Properties := List (String × Property)

/-- Python dict assignment `m[k] = v`: overwrite in place when the key is
present, append at the end otherwise. -/
def dictInsert : Properties → String → Property → Properties
  | [], k, v => [(k, v)]
  | kv :: m, k, v => if kv.1 = k then (k, v) :: m else kv :: dictInsert m k v

/-- `{p.identifier: p for p in filtered_properties}`. -/
def toPropertiesDict (ps : List Property) : Properties :=
  ps.foldl (fun m p => dictInsert m p.identifier p) []

/-- The per-type cache `self._properties : Dict[BlRna, Properties]`. -/
abbrev PropsCache := List (BlRna × Properties)

/-- Dict lookup in the cache. -/
def cacheGet (c : PropsCache) (k : BlRna) : Option Properties :=
  (c.find? (fun kv => decide (kv.1 = k))).map Prod.snd

/-- Dict assignment in the cache (same discipline as `dictInsert`). -/
def cacheInsert : PropsCache → BlRna → Properties → PropsCache
  | [], k, v => [(k, v)]
  | kv :: c, k, v => if kv.1 = k then (k, v) :: c else kv :: cacheInsert c k v

/-- `SynchronizedProperties`: the per-type cache, the owned filter stack,
and the memoized unhandled-collection list. -/
structure SynchronizedProperties where
  _properties : PropsCache
  _filter_stack : FilterStack
  _unhandled_bpy_data_collection_names : Option (List String)

/-- `SynchronizedProperties.__init__(filter_stack)`. -/
def SynchronizedProperties.ofStack (filter_stack : FilterStack) :
    SynchronizedProperties :=
  ⟨[], filter_stack, none⟩

/-- The cache-or-compute tail of `SynchronizedProperties.properties`, after
the argument checks resolved `bl_rna`. The parameter `env` stands for the
host schema access `list(bl_rna.properties)` (the bpy-provided declared
attribute list of a type, external to the repository). A filter that raises
(`FuncFilterOut` has no `apply`) propagates as an error. -/
def SynchronizedProperties.lookupOrCompute (env : BlRna → List Property)
    (self : SynchronizedProperties) (bl_rna : BlRna) :
    Except String (Properties × SynchronizedProperties) :=
  match cacheGet self._properties bl_rna with
  | some bl_rna_properties => .ok (bl_rna_properties, self)
  | none =>
      match self._filter_stack.apply bl_rna (env bl_rna) with
      | none => .error "AttributeError: FuncFilterOut object has no attribute apply"
      | some filtered_properties =>
          let bl_rna_properties := toPropertiesDict filtered_properties
          .ok (bl_rna_properties,
               { self with
                 _properties :=
                   cacheInsert self._properties bl_rna bl_rna_properties })

/-- `SynchronizedProperties.properties(bl_rna_property, bpy_type)`: both
arguments default to `None`; with both `None` the call returns `[]`; with
both provided it raises `ValueError`; otherwise the given handle is
resolved through `.bl_rna` and looked up or computed. The returned items
view and the updated object are paired in `Except.ok`. -/
def SynchronizedProperties.properties (env : BlRna → List Property)
    (self : SynchronizedProperties) (bl_rna_property : Option BlRna)
    (bpy_type : Option BlRna) :
    Except String (Properties × SynchronizedProperties) :=
  match bl_rna_property, bpy_type with
  | none, none => .ok ([], self)
  | some _, some _ => .error "Exactly one of bl_rna and bpy_type must be provided"
  | some p, none => self.lookupOrCompute env p.bl_rna
  | none, some t => self.lookupOrCompute env t.bl_rna

/-- `SynchronizedProperties.unhandled_bpy_data_collection_names`.
`collection_name_to_type` is defined in `mixer.blender_data.blenddata`,
which is not under src/; modelled from the spec as the parameter
`collection_names`, the full list of known top-level collection names of
the host schema, and the `keys() - handled` set difference becomes an
order-preserving filter of that key list. `T.BlendData` is the
distinguished root type, passed as `blendData`. -/
def SynchronizedProperties.unhandled_bpy_data_collection_names
    (env : BlRna → List Property) (collection_names : List String)
    (blendData : BlRna) (self : SynchronizedProperties) :
    Except String (List String × SynchronizedProperties) :=
  match self._unhandled_bpy_data_collection_names with
  | some ns => .ok (ns, self)
  | none =>
      match self.properties env none (some blendData) with
      | .error e => .error e
      | .ok (items, self') =>
          let handled := items.map Prod.fst
          let ns := collection_names.filter (fun n => decide (n ∉ handled))
          .ok (ns,
               { self' with _unhandled_bpy_data_collection_names := some ns })

/-- Written from the spec (§3 AttributeChain): the ordered sequence
`t, base(t), base(base(t)), …` of ancestors, most specific first. -/
def specAncestors : BlRna → List BlRna
  | .mk i none => [.mk i none]
  | .mk i (some b) => .mk i (some b) :: specAncestors b

/-- Written from the spec: the AttributeChain of a type is its ancestors in
order with the Wildcard (`none`) as terminal element. -/
def specChain (t : BlRna) : List (Option BlRna) :=
  (specAncestors t).map some ++ [none]

/-- Written from the spec (§4.3 evaluate): the full filter sequence the
walk visits — for each ancestor in chain order, for each layer in append
order, that layer's filters for the ancestor (zero filters when the layer
has no entry). -/
def specFilterSequence (stack : FilterStack) (t : BlRna) : List Filter :=
  (specChain t).flatMap (fun a => stack._filter_stack.flatMap (fun layer => layer.get a))

/-! ## Structural lemmas about the evaluation walk -/

/-- `.bl_rna` conversion of a chain entry is the identity. -/
theorem option_map_bl_rna (a : Option BlRna) : a.map BlRna.bl_rna = a := by
  cases a <;> rfl

/-- Sequential filter application splits over list append. -/
theorem applyFilters_append (xs ys : List Filter) (l : List Property) :
    applyFilters (xs ++ ys) l = (applyFilters xs l).bind (applyFilters ys) := by
  induction xs generalizing l with
  | nil => rfl
  | cons f xs ih =>
      rw [List.cons_append, applyFilters, applyFilters]
      cases hf : f.apply l with
      | none => rfl
      | some mid =>
          show applyFilters (xs ++ ys) mid
            = (applyFilters xs mid).bind (applyFilters ys)
          exact ih mid

/-- The layer loop applies the concatenation of every layer's filters for
the chain entry. -/
theorem applyLayers_eq_applyFilters (layers : List FilterSet)
    (k : Option BlRna) (l : List Property) :
    applyLayers layers k l
      = applyFilters (layers.flatMap (fun s => s.get k)) l := by
  induction layers generalizing l with
  | nil => rfl
  | cons fs rest ih =>
      rw [applyLayers, List.flatMap_cons, applyFilters_append]
      cases h : applyFilters (fs.get k) l with
      | none => rfl
      | some mid =>
          show applyLayers rest k mid
            = applyFilters (rest.flatMap (fun s => s.get k)) mid
          exact ih mid

/-- The chain loop applies the flattened chain × layer filter sequence. -/
theorem applyChain_eq_applyFilters (layers : List FilterSet)
    (chain : List (Option BlRna)) (l : List Property) :
    applyChain layers chain l
      = applyFilters
          (chain.flatMap (fun a => layers.flatMap (fun s => s.get a))) l := by
  induction chain generalizing l with
  | nil => rfl
  | cons a rest ih =>
      rw [applyChain, List.flatMap_cons, applyFilters_append, option_map_bl_rna,
        applyLayers_eq_applyFilters]
      cases h : applyFilters (layers.flatMap (fun s => s.get a)) l with
      | none => rfl
      | some mid =>
          show applyChain layers rest mid
            = applyFilters
                (rest.flatMap (fun x => layers.flatMap (fun s => s.get x))) mid
          exact ih mid

/-- The AttributeChain written from the spec coincides with the chain the
source generator `bases` yields. -/
theorem specChain_eq_bases : (t : BlRna) → specChain t = bases t
  | .mk _ none => rfl
  | .mk i (some b) => by
      rw [specChain, specAncestors, List.map_cons, List.cons_append, bases]
      rw [show (specAncestors b).map some ++ [none] = specChain b from rfl]
      rw [specChain_eq_bases b]

/-- `FilterStack.apply` is the sequential application of the spec's
flattened chain × layer filter sequence. -/
theorem filterStack_apply_eq_spec (stack : FilterStack) (t : BlRna)
    (l : List Property) :
    stack.apply t l = applyFilters (specFilterSequence stack t) l := by
  rw [FilterStack.apply, applyChain_eq_applyFilters, specFilterSequence,
    specChain_eq_bases]

/-- Every `Filter` subclass that defines `apply` only narrows its input:
the successful output is a sublist of the input. -/
theorem filter_apply_sublist (f : Filter) (l out : List Property)
    (h : f.apply l = some out) : out.Sublist l := by
  cases f with
  | typeFilterIn types =>
      rw [Filter.apply, Option.some.injEq] at h
      exact h ▸ List.filter_sublist l
  | typeFilterOut types =>
      rw [Filter.apply, Option.some.injEq] at h
      exact h ▸ List.filter_sublist l
  | collectionFilterOut types =>
      rw [Filter.apply, Option.some.injEq] at h
      exact h ▸ List.filter_sublist l
  | funcFilterOut => exact Option.noConfusion h
  | nameFilterIn names =>
      rw [Filter.apply, Option.some.injEq] at h
      exact h ▸ List.filter_sublist l
  | nameFilterOut names =>
      rw [Filter.apply, Option.some.injEq] at h
      exact h ▸ List.filter_sublist l

/-- Sequential filter application only narrows its input. -/
theorem applyFilters_sublist (fs : List Filter) (l out : List Property)
    (h : applyFilters fs l = some out) : out.Sublist l := by
  induction fs generalizing l with
  | nil =>
      rw [applyFilters, Option.some.injEq] at h
      exact h ▸ List.Sublist.refl l
  | cons f fs ih =>
      rw [applyFilters] at h
      cases hf : f.apply l with
      | none => rw [hf] at h; exact Option.noConfusion h
      | some mid =>
          rw [hf] at h
          exact (ih mid h).trans (filter_apply_sublist f l mid hf)

/-- Sample RNA handles and properties, used to exercise the theorems on
concrete inputs. -/
def xRna : BlRna := .mk "X" none

def yRna : BlRna := .mk "Y" none

def tRna : BlRna := .mk "T" none

/-- A sample plain (non-collection) string attribute. -/
def mkStringAttr (s : String) : Property :=
  ⟨s, .mk "StringProperty" none, none, none⟩

/-- C1: for every type `t` and attribute list `l`, `FilterStack.apply(t, l)`
walks the ancestor chain of `t` in order (most specific type first, the
Wildcard/`None` entry last); for each ancestor it visits the layers in
append order, fetches that layer's filters for that ancestor (an absent
entry contributing zero filters, without error), and applies the filters in
sequence, each filter's output becoming the next filter's input; the final
working list is returned. The chain-outer/layer-inner walk therefore equals
the sequential application of the spec's flattened filter sequence over the
spec's AttributeChain. -/
theorem c1_apply_walks_chain_then_layers (stack : FilterStack) (t : BlRna)
    (l : List Property) :
    stack.apply t l = applyFilters (specFilterSequence stack t) l :=
  filterStack_apply_eq_spec stack t l

/-- C2: for every type, every `FilterStack` built from the defined filter
variants, and every input attribute list, the output of evaluation is a
subsequence of the input in the original relative order. -/
theorem c2_output_is_subsequence (stack : FilterStack) (t : BlRna)
    (l out : List Property) (h : stack.apply t l = some out) :
    out.Sublist l :=
  applyFilters_sublist (specFilterSequence stack t) l out
    (filterStack_apply_eq_spec stack t l ▸ h)

/-- Witness for C2: the spec's test — attributes `[a, b, c, d]` under
`NameFilterOut({b, d})` evaluate to `[a, c]`, a subsequence of the input. -/
theorem c2_witness :
    FilterStack.apply ⟨[[(none, FiltersVal.list [Filter.nameFilterOut ["b", "d"]])]]⟩
        tRna [mkStringAttr "a", mkStringAttr "b", mkStringAttr "c", mkStringAttr "d"]
      = some [mkStringAttr "a", mkStringAttr "c"] ∧
    List.Sublist [mkStringAttr "a", mkStringAttr "c"]
      [mkStringAttr "a", mkStringAttr "b", mkStringAttr "c", mkStringAttr "d"] :=
  ⟨rfl,
   c2_output_is_subsequence
     ⟨[[(none, FiltersVal.list [Filter.nameFilterOut ["b", "d"]])]]⟩ tRna
     [mkStringAttr "a", mkStringAttr "b", mkStringAttr "c", mkStringAttr "d"]
     [mkStringAttr "a", mkStringAttr "c"] rfl⟩

/-- Two successive narrowing filters keep exactly the conjunction of their
keep-predicates. -/
theorem filter_then_filter (p q : Property → Bool) (l : List Property) :
    (l.filter p).filter q = l.filter (fun x => p x && q x) := by
  induction l with
  | nil => rfl
  | cons x xs ih =>
      by_cases hp : p x <;> by_cases hq : q x <;>
        simp [List.filter_cons, hp, hq, ih]

/-- C3: whenever the filters a `FilterStack` evaluation visits for type `t`
are exactly `NameFilterIn({a,b,c})` and `NameFilterOut({b})` — at whichever
ancestor/layer positions, hence in either visiting order — the outcome on
any input list is the intersection of what each filter would keep alone:
the attributes whose name is in `{a, b, c}` and not in `{b}`. -/
theorem c3_name_filters_intersection (stack : FilterStack) (t : BlRna)
    (a b c : String) (l : List Property)
    (h : specFilterSequence stack t =
           [Filter.nameFilterIn [a, b, c], Filter.nameFilterOut [b]] ∨
         specFilterSequence stack t =
           [Filter.nameFilterOut [b], Filter.nameFilterIn [a, b, c]]) :
    stack.apply t l =
      some (l.filter (fun p =>
        decide (p.identifier ∈ [a, b, c]) &&
          decide (p.identifier ∉ ([b] : List String)))) := by
  rw [filterStack_apply_eq_spec]
  cases h with
  | inl h =>
      rw [h]
      show some ((l.filter fun p => decide (p.identifier ∈ [a, b, c])).filter
            fun p => decide (p.identifier ∉ ([b] : List String)))
          = _
      rw [filter_then_filter]
  | inr h =>
      rw [h]
      show some ((l.filter fun p => decide (p.identifier ∉ ([b] : List String))).filter
            fun p => decide (p.identifier ∈ [a, b, c]))
          = _
      rw [filter_then_filter]
      congr 1
      apply List.filter_congr
      intro x _
      exact Bool.and_comm _ _

/-- Witness for C3: the two filters attached at different ancestor/layer
positions (allow-list on the concrete type in the first layer and exclusion
on the Wildcard in the second layer, and the converse placement) both
evaluate `[a, b, c]` to the kept set `[a, c]`. -/
theorem c3_witness :
    specFilterSequence
        ⟨[[(some tRna, FiltersVal.list [Filter.nameFilterIn ["a", "b", "c"]])],
          [(none, FiltersVal.list [Filter.nameFilterOut ["b"]])]]⟩ tRna
      = [Filter.nameFilterIn ["a", "b", "c"], Filter.nameFilterOut ["b"]] ∧
    FilterStack.apply
        ⟨[[(some tRna, FiltersVal.list [Filter.nameFilterIn ["a", "b", "c"]])],
          [(none, FiltersVal.list [Filter.nameFilterOut ["b"]])]]⟩ tRna
        [mkStringAttr "a", mkStringAttr "b", mkStringAttr "c"]
      = some [mkStringAttr "a", mkStringAttr "c"] ∧
    FilterStack.apply
        ⟨[[(some tRna, FiltersVal.list [Filter.nameFilterOut ["b"]])],
          [(none, FiltersVal.list [Filter.nameFilterIn ["a", "b", "c"]])]]⟩ tRna
        [mkStringAttr "a", mkStringAttr "b", mkStringAttr "c"]
      = some [mkStringAttr "a", mkStringAttr "c"] :=
  ⟨rfl,
   c3_name_filters_intersection
     ⟨[[(some tRna, FiltersVal.list [Filter.nameFilterIn ["a", "b", "c"]])],
       [(none, FiltersVal.list [Filter.nameFilterOut ["b"]])]]⟩ tRna
     "a" "b" "c" [mkStringAttr "a", mkStringAttr "b", mkStringAttr "c"]
     (Or.inl rfl),
   c3_name_filters_intersection
     ⟨[[(some tRna, FiltersVal.list [Filter.nameFilterOut ["b"]])],
       [(none, FiltersVal.list [Filter.nameFilterIn ["a", "b", "c"]])]]⟩ tRna
     "a" "b" "c" [mkStringAttr "a", mkStringAttr "b", mkStringAttr "c"]
     (Or.inr rfl)⟩

/-- C4: `CollectionFilterOut(targetTypes).apply` keeps every non-collection
attribute regardless of its type, and drops a homogeneous-collection
attribute (one of class `T.CollectionProperty` with an element type `srna`)
iff its element type is one of the target types. -/
theorem c4_collection_filter_out_selectivity (types : List BlRna)
    (l : List Property) (p : Property) (hp : p ∈ l) :
    ∃ out, Filter.apply (Filter.collectionFilterOut types) l = some out ∧
      (p.bl_rna ≠ CollectionProperty_bl_rna → p ∈ out) ∧
      (∀ e, p.bl_rna = CollectionProperty_bl_rna → p.srna = some e →
        (p ∉ out ↔ e ∈ types)) := by
  refine ⟨l.filter (fun q => CollectionFilterOut.keeps types q), rfl, ?_, ?_⟩
  · intro hne
    refine List.mem_filter.mpr ⟨hp, ?_⟩
    rw [CollectionFilterOut.keeps]
    simp [hne]
  · intro e hcoll hsrna
    rw [List.mem_filter]
    rw [CollectionFilterOut.keeps, hcoll, hsrna]
    simp [hp, BlRna.bl_rna]

/-- A sample scalar attribute of type `X` (a pointer to `X`, not a
collection). -/
def scalarOfX : Property := ⟨"scalar_of_x", xRna, none, some xRna⟩

/-- A sample homogeneous-collection attribute with element type `X`. -/
def collectionOfX : Property :=
  ⟨"collection_of_x", CollectionProperty_bl_rna, some xRna, none⟩

/-- A sample homogeneous-collection attribute with element type `Y`. -/
def collectionOfY : Property :=
  ⟨"collection_of_y", CollectionProperty_bl_rna, some yRna, none⟩

/-- Witness for C4: on `[scalarOfX, collectionOfX, collectionOfY]`,
`CollectionFilterOut({X})` returns `[scalarOfX, collectionOfY]`; the
collection of `X` is dropped because `X` is targeted while the scalar of
type `X` passes through. -/
theorem c4_witness :
    Filter.apply (Filter.collectionFilterOut [xRna])
        [scalarOfX, collectionOfX, collectionOfY]
      = some [scalarOfX, collectionOfY] ∧
    collectionOfX ∈ [scalarOfX, collectionOfX, collectionOfY] ∧
    ∃ out,
      Filter.apply (Filter.collectionFilterOut [xRna])
          [scalarOfX, collectionOfX, collectionOfY] = some out ∧
      (collectionOfX.bl_rna ≠ CollectionProperty_bl_rna → collectionOfX ∈ out) ∧
      (∀ e, collectionOfX.bl_rna = CollectionProperty_bl_rna →
        collectionOfX.srna = some e → (collectionOfX ∉ out ↔ e ∈ [xRna])) :=
  ⟨rfl, by decide,
   c4_collection_filter_out_selectivity [xRna]
     [scalarOfX, collectionOfX, collectionOfY] collectionOfX (by decide)⟩

/-- C5 (the code at the failing input): `properties()` with no type
argument returns the empty list silently — it does not fail — while the
double type specification does raise `ValueError`. The no-argument
behavior contradicts the error message of the call contract
(`Exactly one of bl_rna and bpy_type must be provided`). -/
theorem c5_properties_argument_check :
    SynchronizedProperties.properties (fun _ => [])
        (SynchronizedProperties.ofStack ⟨[]⟩) none none
      = .ok ([], SynchronizedProperties.ofStack ⟨[]⟩) ∧
    SynchronizedProperties.properties (fun _ => [])
        (SynchronizedProperties.ofStack ⟨[]⟩) (some tRna) (some tRna)
      = .error "Exactly one of bl_rna and bpy_type must be provided" :=
  ⟨rfl, rfl⟩

/-- A filter sequence containing `FuncFilterOut` always aborts: the first
such filter reached has no `apply` and raises. -/
theorem applyFilters_none_of_mem : ∀ (fs : List Filter) (l : List Property),
    Filter.funcFilterOut ∈ fs → applyFilters fs l = none := by
  intro fs
  induction fs with
  | nil => intro l h; cases h
  | cons f fs ih =>
      intro l h
      rw [applyFilters]
      rcases List.mem_cons.mp h with h1 | h2
      · rw [← h1]
        rfl
      · cases hf : f.apply l with
        | none => rfl
        | some mid =>
            show applyFilters fs mid = none
            exact ih mid h2

/-- C9 counterexample: applying a `FuncFilterOut` filter does not return
the (empty) attribute list unchanged — the dispatch finds no `apply` and
fails. -/
theorem c9_counterexample :
    Filter.apply Filter.funcFilterOut ([] : List Property)
      ≠ some ([] : List Property) := by
  intro h
  exact Option.noConfusion h

/-- C9 (amended): `FuncFilterOut` defines no `apply` transform; applying it
fails (`AttributeError`, modelled by `none`) rather than performing an
identity transform, and a `FilterStack` evaluation whose visited filter
sequence contains a `FuncFilterOut` aborts with that error instead of
returning a list. -/
theorem c9_func_filter_out_raises (l : List Property) (stack : FilterStack)
    (t : BlRna) (h : Filter.funcFilterOut ∈ specFilterSequence stack t) :
    Filter.apply Filter.funcFilterOut l = none ∧ stack.apply t l = none :=
  ⟨rfl,
   (filterStack_apply_eq_spec stack t l).trans
     (applyFilters_none_of_mem (specFilterSequence stack t) l h)⟩

/-- Witness for C9: a one-layer stack holding a `FuncFilterOut` under the
Wildcard key makes every evaluation fail. -/
theorem c9_witness :
    Filter.funcFilterOut ∈
      specFilterSequence ⟨[[(none, FiltersVal.list [Filter.funcFilterOut])]]⟩ tRna ∧
    FilterStack.apply ⟨[[(none, FiltersVal.list [Filter.funcFilterOut])]]⟩ tRna
        [mkStringAttr "a"]
      = none :=
  ⟨by decide,
   (c9_func_filter_out_raises [mkStringAttr "a"]
     ⟨[[(none, FiltersVal.list [Filter.funcFilterOut])]]⟩ tRna (by decide)).2⟩

/-- C10: `NameFilter.__init__` treats a single string as one attribute name
(not as an iterable of characters) and converts a set to a list; hence
`NameFilterOut("channels")` removes exactly the attributes named
`channels`. -/
theorem c10_name_filter_single_string (s : String) (xs : List String)
    (l : List Property) :
    NameFilter.namesInit (NamesArg.ofStr s) = [s] ∧
    NameFilter.namesInit (NamesArg.ofSet xs) = xs ∧
    (∀ n, n ∈ NameFilter.namesInit (NamesArg.ofStr s) ↔ n = s) ∧
    Filter.apply
        (Filter.nameFilterOut (NameFilter.namesInit (NamesArg.ofStr "channels"))) l
      = some (l.filter (fun p => decide (p.identifier ≠ "channels"))) ∧
    (∀ p, p ∈ l.filter (fun p => decide (p.identifier ≠ "channels")) ↔
        p ∈ l ∧ p.identifier ≠ "channels") := by
  refine ⟨rfl, rfl, ?_, ?_, ?_⟩
  · intro n
    simp [NameFilter.namesInit]
  · show some (l.filter fun p =>
        decide (p.identifier ∉ NameFilter.namesInit (NamesArg.ofStr "channels")))
      = _
    congr 1
    apply List.filter_congr
    intro x _
    apply decide_eq_decide.mpr
    simp [NameFilter.namesInit]
  · intro p
    simp [List.mem_filter]

/-- C8: `NameFilterOut(names).apply` returns exactly the attributes whose
name is not in `names`, in input order; the `check_unknown` diagnostic
(run since `DEBUG` is set) warns exactly once for every configured name
that is neither among the input attribute names nor in the fixed global
`_exclude_names` set; the returned list is the plain filter, to which the
diagnostic does not contribute. -/
theorem c8_name_filter_out_warns_once (names : List String)
    (l : List Property) (n : String) :
    (NameFilterOut.applyWithWarnings names l).2
        = l.filter (fun p => decide (p.identifier ∉ names)) ∧
    (∀ p, p ∈ (NameFilterOut.applyWithWarnings names l).2 ↔
        p ∈ l ∧ p.identifier ∉ names) ∧
    Filter.apply (Filter.nameFilterOut names) l
        = some ((NameFilterOut.applyWithWarnings names l).2) ∧
    ((NameFilterOut.applyWithWarnings names l).1.count n =
       if n ∈ names ∧ n ∉ _exclude_names ∧ n ∉ l.map Property.identifier
       then 1 else 0) := by
  refine ⟨rfl, ?_, rfl, ?_⟩
  · intro p
    simp [NameFilterOut.applyWithWarnings, List.mem_filter]
  · have hw : (NameFilterOut.applyWithWarnings names l).1
        = (names.dedup.filter (fun m => decide (m ∉ _exclude_names))).filter
            (fun m => decide (m ∉ l.map Property.identifier)) := rfl
    rw [hw]
    have hnd : ((names.dedup.filter (fun m => decide (m ∉ _exclude_names))).filter
        (fun m => decide (m ∉ l.map Property.identifier))).Nodup :=
      (names.nodup_dedup.filter _).filter _
    by_cases hc : n ∈ names ∧ n ∉ _exclude_names ∧ n ∉ l.map Property.identifier
    · rw [if_pos hc]
      refine List.count_eq_one_of_mem hnd ?_
      refine List.mem_filter.mpr ⟨List.mem_filter.mpr ⟨List.mem_dedup.mpr hc.1, ?_⟩, ?_⟩
      · exact decide_eq_true hc.2.1
      · exact decide_eq_true hc.2.2
    · rw [if_neg hc]
      refine List.count_eq_zero.mpr ?_
      intro hmem
      apply hc
      rcases List.mem_filter.mp hmem with ⟨hmem1, hr⟩
      rcases List.mem_filter.mp hmem1 with ⟨hmem2, hq⟩
      exact ⟨List.mem_dedup.mp hmem2, of_decide_eq_true hq, of_decide_eq_true hr⟩

/-! ## Cache lemmas -/

/-- Dict assignment then lookup at the same key yields the new value. -/
theorem cacheGet_cacheInsert_self (c : PropsCache) (k : BlRna)
    (v : Properties) : cacheGet (cacheInsert c k v) k = some v := by
  induction c with
  | nil => simp [cacheInsert, cacheGet, List.find?]
  | cons kv c ih =>
      by_cases h : kv.1 = k
      · rw [cacheInsert, if_pos h]
        simp [cacheGet, List.find?]
      · rw [cacheInsert, if_neg h]
        show (List.find? (fun kv => decide (kv.1 = k))
            (kv :: cacheInsert c k v)).map Prod.snd = some v
        rw [List.find?_cons_of_neg _ (by simpa using h)]
        exact ih

/-- Dict assignment leaves every other key's binding unchanged. -/
theorem cacheGet_cacheInsert_of_ne (c : PropsCache) (k q : BlRna)
    (v : Properties) (h : q ≠ k) :
    cacheGet (cacheInsert c k v) q = cacheGet c q := by
  induction c with
  | nil =>
      rw [cacheInsert]
      show (List.find? (fun kv => decide (kv.1 = q)) [(k, v)]).map Prod.snd
        = cacheGet [] q
      rw [List.find?_cons_of_neg _ (by simpa using Ne.symm h)]
      rfl
  | cons kv c ih =>
      by_cases hk : kv.1 = k
      · rw [cacheInsert, if_pos hk]
        have hkq : ¬ kv.1 = q := fun he => h (he.symm.trans hk)
        show (List.find? (fun kv => decide (kv.1 = q)) ((k, v) :: c)).map Prod.snd
          = (List.find? (fun kv => decide (kv.1 = q)) (kv :: c)).map Prod.snd
        rw [List.find?_cons_of_neg _ (by simpa using Ne.symm h),
          List.find?_cons_of_neg _ (by simpa using hkq)]
      · rw [cacheInsert, if_neg hk]
        by_cases hq : kv.1 = q
        · show (List.find? (fun kv => decide (kv.1 = q))
              (kv :: cacheInsert c k v)).map Prod.snd
            = (List.find? (fun kv => decide (kv.1 = q)) (kv :: c)).map Prod.snd
          rw [List.find?_cons_of_pos _ (by simpa using hq),
            List.find?_cons_of_pos _ (by simpa using hq)]
        · show (List.find? (fun kv => decide (kv.1 = q))
              (kv :: cacheInsert c k v)).map Prod.snd
            = (List.find? (fun kv => decide (kv.1 = q)) (kv :: c)).map Prod.snd
          rw [List.find?_cons_of_neg _ (by simpa using hq),
            List.find?_cons_of_neg _ (by simpa using hq)]
          exact ih

/-- The cache-or-compute tail preserves every existing cache binding. -/
theorem lookupOrCompute_preserves_cache (env : BlRna → List Property)
    (sp : SynchronizedProperties) (key : BlRna) (r : Properties)
    (sp2 : SynchronizedProperties) (t : BlRna) (m : Properties)
    (hm : cacheGet sp._properties t = some m)
    (h : sp.lookupOrCompute env key = .ok (r, sp2)) :
    cacheGet sp2._properties t = some m := by
  rw [SynchronizedProperties.lookupOrCompute] at h
  cases hg : cacheGet sp._properties key with
  | some mm =>
      rw [hg] at h
      simp only [Except.ok.injEq, Prod.mk.injEq] at h
      rw [← h.2]
      exact hm
  | none =>
      rw [hg] at h
      cases ha : sp._filter_stack.apply key (env key) with
      | none => rw [ha] at h; simp at h
      | some fl =>
          rw [ha] at h
          simp only [Except.ok.injEq, Prod.mk.injEq] at h
          rw [← h.2]
          show cacheGet (cacheInsert sp._properties key (toPropertiesDict fl)) t
            = some m
          by_cases hkt : t = key
          · subst hkt
            rw [hg] at hm
            exact Option.noConfusion hm
          · rw [cacheGet_cacheInsert_of_ne _ _ _ _ hkt]
            exact hm

/-- Any successful `properties` call preserves every existing cache
binding: a resolved mapping is never invalidated or replaced. -/
theorem properties_preserves_cache (env : BlRna → List Property)
    (sp : SynchronizedProperties) (p? t? : Option BlRna) (r : Properties)
    (sp2 : SynchronizedProperties) (t : BlRna) (m : Properties)
    (hm : cacheGet sp._properties t = some m)
    (h : SynchronizedProperties.properties env sp p? t? = .ok (r, sp2)) :
    cacheGet sp2._properties t = some m := by
  cases p? with
  | none =>
      cases t? with
      | none =>
          rw [SynchronizedProperties.properties] at h
          simp only [Except.ok.injEq, Prod.mk.injEq] at h
          rw [← h.2]
          exact hm
      | some ty =>
          exact lookupOrCompute_preserves_cache env sp ty.bl_rna r sp2 t m hm h
  | some pr =>
      cases t? with
      | none =>
          exact lookupOrCompute_preserves_cache env sp pr.bl_rna r sp2 t m hm h
      | some ty =>
          rw [SynchronizedProperties.properties] at h
          exact Except.noConfusion h

/-- C6: the first `properties` call for a type computes the filtered
name → attribute mapping through the stack and caches it; every later call
for the same underlying type returns the cached mapping with the object
unchanged — and does so for an arbitrary environment and even with the
filter stack replaced, so no filter is re-run — and any later call
preserves the cached binding unchanged for the lifetime of the instance. -/
theorem c6_properties_memoized (env env2 : BlRna → List Property)
    (sp : SynchronizedProperties) (st2 : FilterStack) (t : BlRna)
    (m r : Properties) (p? t? : Option BlRna) (sp2 : SynchronizedProperties) :
    (cacheGet sp._properties t = some m →
        SynchronizedProperties.properties env sp none (some t) = .ok (m, sp) ∧
        SynchronizedProperties.properties env2
            { sp with _filter_stack := st2 } none (some t)
          = .ok (m, { sp with _filter_stack := st2 })) ∧
    (cacheGet sp._properties t = some m →
        SynchronizedProperties.properties env2 sp p? t? = .ok (r, sp2) →
        cacheGet sp2._properties t = some m) ∧
    (∀ fl, cacheGet sp._properties t = none →
        sp._filter_stack.apply t (env t) = some fl →
        SynchronizedProperties.properties env sp none (some t)
          = .ok (toPropertiesDict fl,
                 { sp with _properties :=
                     cacheInsert sp._properties t (toPropertiesDict fl) }) ∧
        cacheGet (cacheInsert sp._properties t (toPropertiesDict fl)) t
          = some (toPropertiesDict fl)) := by
  refine ⟨?_, ?_, ?_⟩
  · intro hm
    refine ⟨?_, ?_⟩
    · simp [SynchronizedProperties.properties,
        SynchronizedProperties.lookupOrCompute, BlRna.bl_rna, hm]
    · simp [SynchronizedProperties.properties,
        SynchronizedProperties.lookupOrCompute, BlRna.bl_rna, hm]
  · intro hm h
    exact properties_preserves_cache env2 sp p? t? r sp2 t m hm h
  · intro fl hnone happly
    refine ⟨?_, ?_⟩
    · simp [SynchronizedProperties.properties,
        SynchronizedProperties.lookupOrCompute, BlRna.bl_rna, hnone, happly]
    · exact cacheGet_cacheInsert_self _ _ _

/-- A sample cached mapping and the two sample `SynchronizedProperties`
states used to exercise memoization. -/
def m0 : Properties := [("a", mkStringAttr "a")]

/-- A state whose cache already resolves `tRna`. -/
def spCached : SynchronizedProperties := ⟨[(tRna, m0)], ⟨[]⟩, none⟩

/-- A one-layer stack dropping the attribute named `b`. -/
def stackOutB : FilterStack :=
  ⟨[[(none, FiltersVal.list [Filter.nameFilterOut ["b"]])]]⟩

/-- A freshly constructed state owning `stackOutB`. -/
def spFresh : SynchronizedProperties := SynchronizedProperties.ofStack stackOutB

/-- A sample environment declaring attributes `a` and `b` on every type. -/
def envAB : BlRna → List Property := fun _ => [mkStringAttr "a", mkStringAttr "b"]

/-- Witness for C6: a cached entry is returned as is with the state
unchanged, and a first call on a fresh state computes through the stack and
caches the filtered mapping. -/
theorem c6_witness :
    cacheGet spCached._properties tRna = some m0 ∧
    SynchronizedProperties.properties envAB spCached none (some tRna)
      = .ok (m0, spCached) ∧
    cacheGet spFresh._properties tRna = none ∧
    SynchronizedProperties.properties envAB spFresh none (some tRna)
      = .ok ([("a", mkStringAttr "a")],
             ⟨[(tRna, [("a", mkStringAttr "a")])], stackOutB, none⟩) :=
  ⟨rfl,
   ((c6_properties_memoized envAB envAB spCached ⟨[]⟩ tRna m0 m0 none none
       spCached).1 rfl).1,
   rfl,
   ((c6_properties_memoized envAB envAB spFresh ⟨[]⟩ tRna m0 m0 none none
       spFresh).2.2 [mkStringAttr "a"] rfl rfl).1⟩

/-- C7: `unhandled_bpy_data_collection_names` is computed once — a memoized
value is returned as is, for any environment and any collection-name table,
with the state unchanged — and on first computation it equals the known
top-level collection names minus the attribute names that `properties`
returns for the root type `T.BlendData`, and is stored for later calls. -/
theorem c7_unhandled_collection_names (env : BlRna → List Property)
    (collection_names : List String) (blendData : BlRna)
    (sp : SynchronizedProperties) :
    (∀ ns, sp._unhandled_bpy_data_collection_names = some ns →
        SynchronizedProperties.unhandled_bpy_data_collection_names env
            collection_names blendData sp = .ok (ns, sp)) ∧
    (∀ items sp', sp._unhandled_bpy_data_collection_names = none →
        SynchronizedProperties.properties env sp none (some blendData)
          = .ok (items, sp') →
        SynchronizedProperties.unhandled_bpy_data_collection_names env
            collection_names blendData sp
          = .ok (collection_names.filter
                   (fun n => decide (n ∉ items.map Prod.fst)),
                 { sp' with _unhandled_bpy_data_collection_names :=
                     (some (collection_names.filter
                       (fun n => decide (n ∉ items.map Prod.fst)))) }) ∧
        (∀ x, x ∈ collection_names.filter
                   (fun n => decide (n ∉ items.map Prod.fst)) ↔
              x ∈ collection_names ∧ x ∉ items.map Prod.fst)) := by
  constructor
  · intro ns hns
    simp [SynchronizedProperties.unhandled_bpy_data_collection_names, hns]
  · intro items sp' hnone hprop
    constructor
    · simp [SynchronizedProperties.unhandled_bpy_data_collection_names,
        hnone, hprop]
    · intro x
      simp [List.mem_filter]

/-- The distinguished root type `T.BlendData` of the witness schema. -/
def bdRna : BlRna := .mk "BlendData" none

/-- The `cameras` top-level collection attribute of the witness schema. -/
def camerasAttr : Property :=
  ⟨"cameras", CollectionProperty_bl_rna, some (.mk "Camera" none), none⟩

/-- The `scenes` top-level collection attribute of the witness schema. -/
def scenesAttr : Property :=
  ⟨"scenes", CollectionProperty_bl_rna, some (.mk "Scene" none), none⟩

/-- The `brushes` top-level collection attribute of the witness schema. -/
def brushesAttr : Property :=
  ⟨"brushes", CollectionProperty_bl_rna, some (.mk "Brush" none), none⟩

/-- The witness schema: every type declares the three collections. -/
def env7 : BlRna → List Property :=
  fun _ => [camerasAttr, scenesAttr, brushesAttr]

/-- A safe-style configuration allowing only `cameras` and `scenes` on the
root type. -/
def stack7 : FilterStack :=
  ⟨[[(some bdRna,
      FiltersVal.list [Filter.nameFilterIn ["cameras", "scenes"]])]]⟩

/-- The fresh state owning `stack7`. -/
def sp7 : SynchronizedProperties := SynchronizedProperties.ofStack stack7

/-- The root-type mapping the witness configuration resolves. -/
def items7 : Properties := [("cameras", camerasAttr), ("scenes", scenesAttr)]

/-- The state after the root type has been resolved. -/
def sp7' : SynchronizedProperties := ⟨[(bdRna, items7)], stack7, none⟩

/-- Witness for C7: with top-level collections `{cameras, scenes, brushes}`
and a configuration allowing only `{cameras, scenes}`, the unhandled names
are `{brushes}`, and the result is stored in the returned state. -/
theorem c7_witness :
    sp7._unhandled_bpy_data_collection_names = none ∧
    SynchronizedProperties.properties env7 sp7 none (some bdRna)
      = .ok (items7, sp7') ∧
    SynchronizedProperties.unhandled_bpy_data_collection_names env7
        ["cameras", "scenes", "brushes"] bdRna sp7
      = .ok (["brushes"], ⟨[(bdRna, items7)], stack7, some ["brushes"]⟩) :=
  ⟨rfl, rfl,
   ((c7_unhandled_collection_names env7 ["cameras", "scenes", "brushes"]
       bdRna sp7).2 items7 sp7' rfl rfl).1⟩
